import Mathlib

/-
Shallow embedding of the multi-assistant workflow chat system (src/main.py).

The program keeps three mutable managers:
  * `AssistantManager` — a dict of assistant id → Assistant record;
  * `WorkflowManager`  — a dict of workflow name → Workflow record, plus a
    mutable draft (`current_workflow`, a list of steps);
  * `ChatManager`      — the execution engine: a conversation history and a
    system state, driving an OpenAI chat-completion client.

Python dicts are insertion-ordered string-keyed maps; they are embedded as
association lists where insertion of an existing key updates the entry in
place and insertion of a fresh key appends at the end.  The remote
chat-completion call is embedded as an oracle `Api : Request → Except String
String` passed in as a parameter; exceptions become the `Except` monad with
the exception's message string as the error.  Wall-clock timestamps
(`datetime.now()`) are passed in as explicit string parameters.  File I/O
(yaml/json dumps) is embedded by its observable content: the record
structures that the dump/load pair serializes.
-/

namespace MultiAssistant

/-- `Assistant` dataclass (src/main.py lines 60-71): id, name, role, prompt
and two timestamp strings. -/
structure Assistant where
  id : String
  name : String
  role : String
  prompt : String
  created_at : String
  modified_at : String
  deriving DecidableEq

/-- `WorkflowStep` dataclass (lines 73-82): an ordered list of assistant ids,
a parallel flag, and a time-derived step id (generated by `__post_init__`
when the given one is empty; the generation clock is a parameter here). -/
structure WorkflowStep where
  assistants : List String
  is_parallel : Bool
  step_id : String
  deriving DecidableEq

/-- `Workflow` dataclass (lines 84-100). -/
structure Workflow where
  name : String
  steps : List WorkflowStep
  description : String
  created_at : String
  modified_at : String
  deriving DecidableEq

/-- `Message` dataclass (lines 102-110), restricted to its role and content;
the timestamp field is a wall-clock value never inspected by the claims. -/
structure Message where
  role : String
  content : String
  deriving DecidableEq

/-- `SystemState` enum (lines 53-57). -/
inductive SystemState where
  | UNINITIALIZED
  | INITIALIZED
  | ERROR
  deriving DecidableEq

/-- Python dict lookup `d.get(k)` / `d[k]` on an insertion-ordered dict. -/
def dictFind (k : String) : List (String × α) → Option α
  | [] => none
  | (k', v) :: rest => if k' = k then some v else dictFind k rest

/-- Python `k in d`. -/
def dictContains (k : String) (d : List (String × α)) : Bool :=
  (dictFind k d).isSome

/-- Python `d[k] = v`: updates an existing key in place (keeping its
position), otherwise appends the new entry at the end. -/
def dictInsert (k : String) (v : α) : List (String × α) → List (String × α)
  | [] => [(k, v)]
  | (k', v') :: rest =>
      if k' = k then (k, v) :: rest else (k', v') :: dictInsert k v rest

/-- Python `name.lower().replace(" ", "_")` (line 346): lower-case every
character, then replace each space by an underscore. -/
def deriveId (name : String) : String :=
  String.mk ((name.toList.map Char.toLower).map (fun c => if c = ' ' then '_' else c))

/-- `AssistantManager` (lines 302-402): its mutable state is the dict of
assistants.  Loading of defaults and of the saved config file populates this
dict before the operations below run; the claims quantify over arbitrary
dict states, so that population step is left to the caller. -/
structure AssistantManager where
  assistants : List (String × Assistant)
  deriving DecidableEq

/-- `AssistantManager.add_assistant` (lines 343-362): derive the id from the
name; if the id is already a key, the raised `AssistantError` is caught and
`False` is returned with the dict untouched; otherwise a fresh record is
inserted and `True` returned.  `now` stands for the dataclass-default
timestamp of the new record. -/
def add_assistant (m : AssistantManager) (name role prompt : String) (now : String) :
    Bool × AssistantManager :=
  let assistant_id := deriveId name
  if dictContains assistant_id m.assistants then
    (false, m)
  else
    (true, ⟨dictInsert assistant_id
      ⟨assistant_id, name, role, prompt, now, now⟩ m.assistants⟩)

/-- One iteration of the `for key, value in data.items(): if hasattr(...):
setattr(...)` loop in `update_assistant` (lines 371-373).  Every dataclass
field of `Assistant` is an attribute, so all six are settable; a key naming
no field leaves the record unchanged (Python would at most attach an
instance attribute invisible to the dataclass fields and to `asdict`). -/
def applyField (a : Assistant) (kv : String × String) : Assistant :=
  if kv.1 = "id" then { a with id := kv.2 }
  else if kv.1 = "name" then { a with name := kv.2 }
  else if kv.1 = "role" then { a with role := kv.2 }
  else if kv.1 = "prompt" then { a with prompt := kv.2 }
  else if kv.1 = "created_at" then { a with created_at := kv.2 }
  else if kv.1 = "modified_at" then { a with modified_at := kv.2 }
  else a

/-- `AssistantManager.update_assistant` (lines 364-381): fails (returns
`False`) when the id is absent; otherwise applies every supplied field that
matches an attribute, then unconditionally refreshes `modified_at` to `now`,
keeping the record under its original dict key. -/
def update_assistant (m : AssistantManager) (assistant_id : String)
    (data : List (String × String)) (now : String) : Bool × AssistantManager :=
  match dictFind assistant_id m.assistants with
  | none => (false, m)
  | some a =>
      let a' := data.foldl applyField a
      let a'' := { a' with modified_at := now }
      (true, ⟨dictInsert assistant_id a'' m.assistants⟩)

/-- `AssistantManager.get_assistant` (lines 383-385). -/
def get_assistant (m : AssistantManager) (assistant_id : String) : Option Assistant :=
  dictFind assistant_id m.assistants

/-- `WorkflowManager` (lines 404-518): the dict of saved workflows and the
mutable current-workflow draft. -/
structure WorkflowManager where
  workflows : List (String × Workflow)
  current_workflow : List WorkflowStep
  deriving DecidableEq

/-- `WorkflowManager.add_step` (lines 442-459): rejects an empty selection,
filters out falsy (empty-string) ids, rejects if nothing remains, otherwise
appends a fresh step to the draft.  `step_id` stands for the time-derived id
`__post_init__` generates. -/
def add_step (m : WorkflowManager) (assistants : List String) (is_parallel : Bool)
    (step_id : String) : Bool × WorkflowManager :=
  if assistants.isEmpty then
    (false, m)
  else
    let assistants' := assistants.filter (fun a => a ≠ "")
    if assistants'.isEmpty then
      (false, m)
    else
      let step : WorkflowStep := ⟨assistants', is_parallel, step_id⟩
      (true, { m with current_workflow := m.current_workflow ++ [step] })

/-- `WorkflowManager.save_current_workflow` (lines 461-478): rejects an empty
name or empty draft, otherwise snapshots the draft (`self.current_workflow.copy()`)
into the workflow dict under `name`. -/
def save_current_workflow (m : WorkflowManager) (name description : String)
    (now : String) : Bool × WorkflowManager :=
  if name = "" ∨ m.current_workflow.isEmpty then
    (false, m)
  else
    let w : Workflow := ⟨name, m.current_workflow, description, now, now⟩
    (true, { m with workflows := dictInsert name w m.workflows })

/-- `WorkflowManager.load_workflow` (lines 480-491): fails when the name is
absent, otherwise replaces the draft with `self.workflows[name].steps.copy()`.
(The Python copy is shallow, but no operation of the program ever mutates a
`WorkflowStep` in place, so list-value semantics is observationally
faithful.) -/
def load_workflow (m : WorkflowManager) (name : String) : Bool × WorkflowManager :=
  match dictFind name m.workflows with
  | none => (false, m)
  | some w => (true, { m with current_workflow := w.steps })

/-- `WorkflowManager.clear_current_workflow` (lines 493-496). -/
def clear_current_workflow (m : WorkflowManager) : WorkflowManager :=
  { m with current_workflow := [] }

/-- The draft-mutating operations the workflow store exposes (no operation of
the program mutates an existing step in place). -/
inductive DraftOp where
  | addStep (assistants : List String) (is_parallel : Bool) (step_id : String)
  | clearDraft

/-- Run one draft-mutating operation. -/
def applyDraftOp (m : WorkflowManager) : DraftOp → WorkflowManager
  | .addStep assistants is_parallel step_id =>
      (add_step m assistants is_parallel step_id).2
  | .clearDraft => clear_current_workflow m

/-- `asdict(step)` as used by `Workflow.to_dict` (line 96): the persisted
form of a step. -/
structure StepDict where
  assistants : List String
  is_parallel : Bool
  step_id : String
  deriving DecidableEq

/-- The persisted form of a workflow, as produced by `Workflow.to_dict`
(lines 93-100) and consumed by `load_workflows`. -/
structure WorkflowDict where
  name : String
  steps : List StepDict
  description : String
  created_at : String
  modified_at : String
  deriving DecidableEq

/-- `asdict(step)` (line 96). -/
def WorkflowStep.asdict (s : WorkflowStep) : StepDict :=
  ⟨s.assistants, s.is_parallel, s.step_id⟩

/-- `Workflow.to_dict` (lines 93-100). -/
def Workflow.to_dict (w : Workflow) : WorkflowDict :=
  ⟨w.name, w.steps.map WorkflowStep.asdict, w.description, w.created_at, w.modified_at⟩

/-- `WorkflowManager.save_workflows` (lines 430-440): the JSON file content is
`{name: workflow.to_dict() for name, workflow in self.workflows.items()}`;
json round-trips these records verbatim, so the persisted form is embedded
as the dict of `WorkflowDict` records itself. -/
def save_workflows (m : WorkflowManager) : List (String × WorkflowDict) :=
  m.workflows.map (fun p => (p.1, p.2.to_dict))

/-- `WorkflowStep(**step)` (line 420) with `__post_init__`: an empty
`step_id` is regenerated from the clock, a non-empty one is kept. -/
def stepOfDict (d : StepDict) (clock : String) : WorkflowStep :=
  if d.step_id = "" then ⟨d.assistants, d.is_parallel, clock⟩
  else ⟨d.assistants, d.is_parallel, d.step_id⟩

/-- The `Workflow(...)` reconstruction of lines 418-424. -/
def wfOfDict (d : WorkflowDict) (clock : String) : Workflow :=
  ⟨d.name, d.steps.map (fun s => stepOfDict s clock), d.description,
    d.created_at, d.modified_at⟩

/-- The loop of `WorkflowManager.load_workflows` (lines 417-425): iterate
over the persisted dict's values and assign `self.workflows[workflow.name]`
— note the reconstructed record's own `name` field is the key. -/
def load_workflows_from (clock : String) :
    List (String × WorkflowDict) → List (String × Workflow) → List (String × Workflow)
  | [], acc => acc
  | p :: rest, acc =>
      load_workflows_from clock rest (dictInsert p.2.name (wfOfDict p.2 clock) acc)

/-- `WorkflowManager.load_workflows` (lines 411-428) run from the initial
empty dict set up by `__init__`. -/
def load_workflows (data : List (String × WorkflowDict)) (clock : String) :
    List (String × Workflow) :=
  load_workflows_from clock data []

/-- One request to the chat-completion backend, as built by
`get_assistant_response` (lines 585-592): the model name, the system
message's content and the user message's content. -/
structure Request where
  model : String
  system : String
  user : String
  deriving DecidableEq

/-- The remote completion call `client.chat.completions.create`, embedded as
an oracle: `.ok` is the returned message content, `.error` carries the
raised exception's message. -/
def Api : Type := Request → Except String String

/-- Python `"\n".join(l)`. -/
def joinWith (sep : String) : List String → String
  | [] => ""
  | [x] => x
  | x :: y :: rest => x ++ sep ++ joinWith sep (y :: rest)

/-- `ChatManager` state (lines 520-527): the conversation history and the
system state (the `client`/credential fields only feed the oracle). -/
structure ChatManager where
  conversation_history : List Message
  system_state : SystemState
  deriving DecidableEq

/-- `ChatManager.get_assistant_response` (lines 582-596): builds the request
with system content the literal `"You are "` followed by the raw assistant
id, and on failure re-raises `APIError` with the wrapped message
`"获取助手响应失败: " ++ cause` (the assistant id is only logged, not put in
the exception). -/
def get_assistant_response (api : Api) (message assistant_id model : String) :
    Except String String :=
  match api ⟨model, "You are " ++ assistant_id, message⟩ with
  | .ok r => .ok r
  | .error e => .error ("获取助手响应失败: " ++ e)

/-- The sequential branch of the step loop (lines 566-570): thread
`current_message` through the step's assistants in order, appending each
response to `results`; the first exception aborts the loop. -/
def runSequential (api : Api) (model : String) :
    List String → String → List String → Except String (List String × String)
  | [], current_message, results => .ok (results, current_message)
  | assistant_id :: rest, current_message, results =>
      match get_assistant_response api current_message assistant_id model with
      | .error e => .error e
      | .ok response => runSequential api model rest response (results ++ [response])

/-- The parallel branch's `asyncio.gather` (lines 558-562): one completion
per assistant, every one on the same `current_message`, results collected in
the declared assistant order; if any task raises, gather re-raises (the
embedding surfaces the first failing assistant's error in declared order —
the claims do not depend on which of several simultaneous failures wins). -/
def gatherResponses (api : Api) (model current_message : String) :
    List String → Except String (List String)
  | [] => .ok []
  | assistant_id :: rest =>
      match get_assistant_response api current_message assistant_id model with
      | .error e => .error e
      | .ok r =>
          match gatherResponses api model current_message rest with
          | .error e => .error e
          | .ok rs => .ok (r :: rs)

/-- The `for step in workflow` loop of `process_message` (lines 555-570),
carrying `current_message` and the accumulated `results`. -/
def runWorkflow (api : Api) (model : String) :
    List WorkflowStep → String → List String → Except String (List String)
  | [], _, results => .ok results
  | step :: rest, current_message, results =>
      if step.is_parallel then
        match gatherResponses api model current_message step.assistants with
        | .error e => .error e
        | .ok step_results =>
            runWorkflow api model rest (joinWith "\n" step_results)
              (results ++ step_results)
      else
        match runSequential api model step.assistants current_message results with
        | .error e => .error e
        | .ok p => runWorkflow api model rest p.2 p.1

/-- `ChatManager.process_message` (lines 543-580): fail fast when not
initialized (before the history append); append the user message; run the
workflow; on success join all results with newlines, append exactly one
assistant message and return the join; any exception inside the `try` is
wrapped into `APIError("处理消息失败: " ++ cause)` with the user message
left in the history and no assistant message appended. -/
def process_message (api : Api) (m : ChatManager) (message : String)
    (workflow : List WorkflowStep) (model : String) :
    Except String String × ChatManager :=
  if m.system_state ≠ SystemState.INITIALIZED then
    (.error "系统未初始化", m)
  else
    let hist1 := m.conversation_history ++ [⟨"user", message⟩]
    match runWorkflow api model workflow message [] with
    | .ok results =>
        let final_response := joinWith "\n" results
        (.ok final_response,
          { m with conversation_history := hist1 ++ [⟨"assistant", final_response⟩] })
    | .error e => (.error ("处理消息失败: " ++ e), { m with conversation_history := hist1 })

/-!
Specification-side definitions, written from the words of spec.md §4.4
("Algorithm for run(initialMessage, workflowSteps, model)").  The completion
operation is abstract: `complete assistantId input`.  These are compared
with the source-embedded engine above by refinement theorems.
-/

/-- Modelled from the spec: §4.4 step 3a — for a parallel step, invoke
`complete` once per assistant, all on the same `currentMessage`, and collect
the results preserving the declared assistant order; any failure aborts. -/
def specParallel (complete : String → String → Except String String)
    (currentMessage : String) : List String → Except String (List String)
  | [] => .ok []
  | aid :: rest =>
      match complete aid currentMessage with
      | .error e => .error e
      | .ok r =>
          match specParallel complete currentMessage rest with
          | .error e => .error e
          | .ok rs => .ok (r :: rs)

/-- Modelled from the spec: §4.4 step 3b — for a sequential step, each
assistant in order consumes the immediately preceding assistant's output;
returns the step's results and the final `currentMessage`. -/
def specSequential (complete : String → String → Except String String) :
    List String → String → Except String (List String × String)
  | [], currentMessage => .ok ([], currentMessage)
  | aid :: rest, currentMessage =>
      match complete aid currentMessage with
      | .error e => .error e
      | .ok r =>
          match specSequential complete rest r with
          | .error e => .error e
          | .ok p => .ok (r :: p.1, p.2)

/-- Modelled from the spec: §4.4 steps 2-3 — process the steps in order,
starting from `currentMessage` and accumulated `results`; a parallel step
feeds the newline-join of its results to the next step, a sequential step
feeds its last result. -/
def specRunAll (complete : String → String → Except String String) :
    List WorkflowStep → String → List String → Except String (List String)
  | [], _, results => .ok results
  | step :: rest, currentMessage, results =>
      if step.is_parallel then
        match specParallel complete currentMessage step.assistants with
        | .error e => .error e
        | .ok stepResults =>
            specRunAll complete rest (joinWith "\n" stepResults) (results ++ stepResults)
      else
        match specSequential complete step.assistants currentMessage with
        | .error e => .error e
        | .ok p => specRunAll complete rest p.2 (results ++ p.1)

/-- The concrete completion operation the engine hands to each assistant:
`complete aid input` is `get_assistant_response` with the argument order of
the abstract spec operation. -/
def engineComplete (api : Api) (model : String)
    (assistant_id currentMessage : String) : Except String String :=
  get_assistant_response api currentMessage assistant_id model

/-- Whether an `Except` result is a success. -/
def exceptIsOk : Except String α → Bool
  | .ok _ => true
  | .error _ => false

/-- An oracle that always answers: the completion text is an arbitrary
function of the request. -/
def okApi (f : Request → String) : Api := fun req => .ok (f req)

/-!  Concrete fixtures used by the witness theorems below. -/

/-- An oracle echoing the request's system context and user message. -/
def echoApi : Api := fun req => .ok (req.system ++ ":" ++ req.user)

/-- An oracle that always fails with cause `boom`. -/
def boomApi : Api := fun _ => .error "boom"

/-- An initialized chat session with empty history. -/
def chatInit : ChatManager := ⟨[], SystemState.INITIALIZED⟩

/-- The spec's example workflow: a parallel committee `[A, B]` followed by a
sequential step `[C]`. -/
def wfCommittee : List WorkflowStep := [⟨["A", "B"], true, "s1"⟩, ⟨["C"], false, "s2"⟩]

/-- The step results of running `wfCommittee` on input `X` against `echoApi`. -/
def committeeResults : List String :=
  ["You are A:X", "You are B:X", "You are C:You are A:X\nYou are B:X"]

/-- A single sequential step naming one assistant. -/
def wfSolo : List WorkflowStep := [⟨["C"], false, "s1"⟩]

/-- A single step naming an assistant id present in no store. -/
def wfGhost : List WorkflowStep := [⟨["ghost_assistant"], false, "s1"⟩]

/-- A single step naming assistant `alice`. -/
def wfAlice : List WorkflowStep := [⟨["alice"], false, "s1"⟩]

/-- A single step naming assistant `bob`. -/
def wfBob : List WorkflowStep := [⟨["bob"], false, "s1"⟩]

/-- An assistant store with no entries. -/
def emptyAssistants : AssistantManager := ⟨[]⟩

/-- The store obtained by adding assistant `My Helper` with prompt `P`. -/
def helperStore : AssistantManager :=
  (add_assistant emptyAssistants "My Helper" "helper" "P" "T0").2

/-- A store already holding the id that `My Helper` derives to. -/
def dupStore : AssistantManager :=
  ⟨[("my_helper", ⟨"my_helper", "My Helper", "h", "P", "T0", "T0"⟩)]⟩

/-- A store holding a single assistant `bob`. -/
def bobStore : AssistantManager :=
  ⟨[("bob", ⟨"bob", "Bob", "r", "p", "T0", "T0"⟩)]⟩

/-- A store holding a single assistant `alice`. -/
def aliceStore : AssistantManager :=
  ⟨[("alice", ⟨"alice", "Alice", "r", "p", "T0", "T0"⟩)]⟩

/-- A workflow store holding one saved workflow `W` and an empty draft. -/
def wmW : WorkflowManager :=
  ⟨[("W", ⟨"W", [⟨["a", "b"], true, "s1"⟩], "d", "T0", "T0"⟩)], []⟩

/-- A workflow store with two saved workflows, used for the round-trip
witness. -/
def wmTwo : WorkflowManager :=
  ⟨[("W1", ⟨"W1", [⟨["a", "b"], true, "s1"⟩, ⟨["c"], false, "s2"⟩], "d1", "T0", "T0"⟩),
    ("W2", ⟨"W2", [⟨["x"], false, ""⟩], "d2", "T1", "T1"⟩)], []⟩

/-- Draft mutations used by the aliasing witness. -/
def opsDemo : List DraftOp :=
  [DraftOp.addStep ["c"] false "s9", DraftOp.clearDraft, DraftOp.addStep ["d"] true "s10"]

/-- The stored workflow `W` of `wmW`. -/
def wW : Workflow := ⟨"W", [⟨["a", "b"], true, "s1"⟩], "d", "T0", "T0"⟩

/-- The state after loading `W` into `wmW`'s draft. -/
def wmWLoaded : WorkflowManager := ⟨wmW.workflows, wW.steps⟩

/-- The observable content of a step the round-trip claim compares: its
parallel flag and its ordered assistant-id list. -/
def stepProj (s : WorkflowStep) : Bool × List String := (s.is_parallel, s.assistants)

/-! ## Dictionary lemmas -/

theorem dictFind_dictInsert_self (k : String) (v : α) (d : List (String × α)) :
    dictFind k (dictInsert k v d) = some v := by
  induction d with
  | nil => simp [dictInsert, dictFind]
  | cons p rest ih =>
      obtain ⟨k', v'⟩ := p
      by_cases h : k' = k
      · simp [dictInsert, dictFind, h]
      · simp [dictInsert, dictFind, h, ih]

theorem dictFind_dictInsert_ne (k k₀ : String) (v : α) (d : List (String × α))
    (h : k₀ ≠ k) : dictFind k₀ (dictInsert k v d) = dictFind k₀ d := by
  induction d with
  | nil => simp [dictInsert, dictFind, Ne.symm h]
  | cons p rest ih =>
      obtain ⟨k', v'⟩ := p
      by_cases hk : k' = k
      · subst hk
        simp [dictInsert, dictFind, Ne.symm h]
      · simp only [dictInsert, if_neg hk, dictFind]
        by_cases hk₀ : k' = k₀
        · simp [hk₀]
        · simp [hk₀, ih]

theorem dictInsert_of_not_mem (k : String) (v : α) (d : List (String × α))
    (h : k ∉ d.map Prod.fst) : dictInsert k v d = d ++ [(k, v)] := by
  induction d with
  | nil => rfl
  | cons p rest ih =>
      obtain ⟨k', v'⟩ := p
      simp only [List.map_cons, List.mem_cons] at h
      push_neg at h
      rw [dictInsert, if_neg (fun hh => h.1 hh.symm), ih h.2]
      rfl

/-! ## Engine refinement: the source loop realizes the spec algorithm -/

theorem gather_eq_specParallel (api : Api) (model cur : String) (ids : List String) :
    gatherResponses api model cur ids = specParallel (engineComplete api model) cur ids := by
  induction ids with
  | nil => rfl
  | cons aid rest ih =>
      simp only [gatherResponses, specParallel, engineComplete]
      cases get_assistant_response api cur aid model with
      | error e => rfl
      | ok r =>
          dsimp only
          rw [ih]

theorem runSequential_eq_specSequential (api : Api) (model : String) (ids : List String) :
    ∀ cur results, runSequential api model ids cur results =
      match specSequential (engineComplete api model) ids cur with
      | .error e => .error e
      | .ok p => .ok (results ++ p.1, p.2) := by
  induction ids with
  | nil => intro cur results; simp [runSequential, specSequential]
  | cons aid rest ih =>
      intro cur results
      simp only [runSequential, specSequential, engineComplete]
      cases get_assistant_response api cur aid model with
      | error e => rfl
      | ok r =>
          dsimp only
          rw [ih r (results ++ [r])]
          cases specSequential (engineComplete api model) rest r with
          | error e => rfl
          | ok p => simp

theorem runWorkflow_eq_specRunAll (api : Api) (model : String) (steps : List WorkflowStep) :
    ∀ cur results, runWorkflow api model steps cur results =
      specRunAll (engineComplete api model) steps cur results := by
  induction steps with
  | nil => intro cur results; rfl
  | cons step rest ih =>
      intro cur results
      simp only [runWorkflow, specRunAll]
      cases hp : step.is_parallel with
      | true =>
          rw [if_pos rfl, if_pos rfl, gather_eq_specParallel]
          cases specParallel (engineComplete api model) cur step.assistants with
          | error e => rfl
          | ok step_results => exact ih _ _
      | false =>
          rw [if_neg (by simp), if_neg (by simp), runSequential_eq_specSequential]
          cases specSequential (engineComplete api model) step.assistants cur with
          | error e => rfl
          | ok p => exact ih _ _

/-! ## Claim theorems -/

/-- C1: for an initialized session, `process_message` appends the initial
message as one user message, processes the steps exactly as the spec's
algorithm prescribes (parallel steps fan the same `currentMessage` out to
every assistant and join their declared-order results with a newline;
sequential steps chain each assistant on the previous result), returns the
newline-join of all results and appends it as exactly one assistant
message. -/
theorem process_message_follows_spec (api : Api) (m : ChatManager)
    (message model : String) (workflow : List WorkflowStep) (results : List String)
    (h_init : m.system_state = SystemState.INITIALIZED)
    (h_run : specRunAll (engineComplete api model) workflow message [] = .ok results) :
    process_message api m message workflow model =
      (.ok (joinWith "\n" results),
        { m with conversation_history := m.conversation_history ++
            [⟨"user", message⟩, ⟨"assistant", joinWith "\n" results⟩] }) := by
  rw [process_message, if_neg (by simp [h_init])]
  rw [runWorkflow_eq_specRunAll, h_run]
  simp

/-- C1 witness: the spec's committee example, run concretely. -/
theorem process_message_follows_spec_witness :
    specRunAll (engineComplete echoApi "g") wfCommittee "X" [] = .ok committeeResults ∧
    process_message echoApi chatInit "X" wfCommittee "g" =
      (.ok (joinWith "\n" committeeResults),
        { chatInit with conversation_history := chatInit.conversation_history ++
            [⟨"user", "X"⟩, ⟨"assistant", joinWith "\n" committeeResults⟩] }) :=
  ⟨rfl, process_message_follows_spec echoApi chatInit "X" "g" wfCommittee
    committeeResults rfl rfl⟩

/-- C2: when the workflow run fails, `process_message` surfaces a wrapped
error, the user message appended at the start stays in the history, and no
assistant message (and none of the partial results) is appended. -/
theorem failed_run_appends_only_user_message (api : Api) (m : ChatManager)
    (message model : String) (workflow : List WorkflowStep) (e : String)
    (h_init : m.system_state = SystemState.INITIALIZED)
    (h_err : runWorkflow api model workflow message [] = .error e) :
    process_message api m message workflow model =
      (.error ("处理消息失败: " ++ e),
        { m with conversation_history := m.conversation_history ++ [⟨"user", message⟩] }) := by
  rw [process_message, if_neg (by simp [h_init])]
  rw [h_err]

/-- C2 witness: a failing completion on a one-step workflow. -/
theorem failed_run_appends_only_user_message_witness :
    runWorkflow boomApi "g" wfSolo "X" [] = .error "获取助手响应失败: boom" ∧
    process_message boomApi chatInit "X" wfSolo "g" =
      (.error ("处理消息失败: " ++ "获取助手响应失败: boom"),
        { chatInit with conversation_history := chatInit.conversation_history ++
            [⟨"user", "X"⟩] }) :=
  ⟨rfl, failed_run_appends_only_user_message boomApi chatInit "X" "g" wfSolo
    "获取助手响应失败: boom" rfl rfl⟩

/-- C10: running an initialized engine on an empty step list succeeds with
the empty string and appends one user message and one empty assistant
message. -/
theorem empty_workflow_run (api : Api) (m : ChatManager) (message model : String)
    (h_init : m.system_state = SystemState.INITIALIZED) :
    process_message api m message [] model =
      (.ok "", { m with conversation_history := m.conversation_history ++
          [⟨"user", message⟩, ⟨"assistant", ""⟩] }) := by
  rw [process_message, if_neg (by simp [h_init])]
  simp [runWorkflow, joinWith]

/-- C10 witness: a concrete empty-workflow run. -/
theorem empty_workflow_run_witness :
    chatInit.system_state = SystemState.INITIALIZED ∧
    process_message boomApi chatInit "hello" [] "g" =
      (.ok "", { chatInit with conversation_history := chatInit.conversation_history ++
          [⟨"user", "hello"⟩, ⟨"assistant", ""⟩] }) :=
  ⟨rfl, empty_workflow_run boomApi chatInit "hello" "g" rfl⟩

/-! ## Runs against an always-answering oracle never fail -/

theorem gather_okApi (f : Request → String) (model : String) :
    ∀ (ids : List String) (cur : String),
      gatherResponses (okApi f) model cur ids =
        .ok (ids.map (fun aid => f ⟨model, "You are " ++ aid, cur⟩)) := by
  intro ids
  induction ids with
  | nil => intro cur; rfl
  | cons aid rest ih =>
      intro cur
      simp only [gatherResponses, get_assistant_response, okApi]
      rw [ih]
      rfl

theorem runSequential_okApi (f : Request → String) (model : String) :
    ∀ (ids : List String) (cur : String) (results : List String),
      exceptIsOk (runSequential (okApi f) model ids cur results) = true := by
  intro ids
  induction ids with
  | nil => intro cur results; rfl
  | cons aid rest ih =>
      intro cur results
      simp only [runSequential, get_assistant_response, okApi]
      exact ih _ _

theorem runWorkflow_okApi (f : Request → String) (model : String) :
    ∀ (steps : List WorkflowStep) (cur : String) (results : List String),
      exceptIsOk (runWorkflow (okApi f) model steps cur results) = true := by
  intro steps
  induction steps with
  | nil => intro cur results; rfl
  | cons step rest ih =>
      intro cur results
      simp only [runWorkflow]
      cases hp : step.is_parallel with
      | true =>
          rw [if_pos rfl, gather_okApi]
          exact ih _ _
      | false =>
          rw [if_neg (by simp)]
          have hs := runSequential_okApi f model step.assistants cur results
          cases h : runSequential (okApi f) model step.assistants cur results with
          | error e => rw [h] at hs; exact absurd hs (by simp [exceptIsOk])
          | ok p => exact ih _ _

/-- C9: the engine never resolves assistant ids in the assistant store —
the completion request's system context is the literal `You are ` followed
by the raw id (probed by an oracle answering with the request's system
content), and a run succeeds for any step ids whenever the oracle answers,
so an id absent from every store never causes a NotFound-style failure. -/
theorem engine_ignores_assistant_store (f : Request → String) (m : ChatManager)
    (message model msg aid mo : String) (workflow : List WorkflowStep)
    (h_init : m.system_state = SystemState.INITIALIZED) :
    get_assistant_response (okApi Request.system) msg aid mo = .ok ("You are " ++ aid) ∧
    exceptIsOk (process_message (okApi f) m message workflow model).1 = true := by
  constructor
  · rfl
  · rw [process_message, if_neg (by simp [h_init])]
    have hw := runWorkflow_okApi f model workflow message []
    cases h : runWorkflow (okApi f) model workflow message [] with
    | error e => rw [h] at hw; exact absurd hw (by simp [exceptIsOk])
    | ok results => rfl

/-- C9 witness: a run over an id (`ghost_assistant`) present in no store. -/
theorem engine_ignores_assistant_store_witness :
    chatInit.system_state = SystemState.INITIALIZED ∧
    (get_assistant_response (okApi Request.system) "X" "ghost_assistant" "g" =
        .ok ("You are " ++ "ghost_assistant") ∧
      exceptIsOk (process_message (okApi Request.user) chatInit "X" wfGhost "g").1 = true) :=
  ⟨rfl, engine_ignores_assistant_store Request.user chatInit "X" "g" "X"
    "ghost_assistant" "g" wfGhost rfl⟩

/-- C3: contrary to the claim, the engine does not use the stored persona:
assistant `my_helper` is stored (via `add_assistant`) with prompt `P`, yet
the completion request issued for it carries the literal system content
`You are my_helper` (probed by an oracle answering with the request's
system content), which is not the stored prompt. -/
theorem persona_not_used_as_system_context :
    get_assistant helperStore "my_helper" =
      some ⟨"my_helper", "My Helper", "helper", "P", "T0", "T0"⟩ ∧
    get_assistant_response (okApi Request.system) "X" "my_helper" "g" =
      .ok "You are my_helper" ∧
    ("You are my_helper" : String) ≠ "P" :=
  ⟨rfl, rfl, by decide⟩

/-- C6: `add_assistant` derives the id by lower-casing the name and turning
each space into an underscore; when that id is already a key of the store
the call fails and returns the store unchanged, so the existing entry keeps
its previous contents. -/
theorem add_assistant_duplicate_id (m : AssistantManager) (name role prompt now : String)
    (h_dup : dictContains (deriveId name) m.assistants = true) :
    add_assistant m name role prompt now = (false, m) ∧
    deriveId name = String.mk (name.toList.map
      (fun c => if Char.toLower c = ' ' then '_' else Char.toLower c)) := by
  constructor
  · simp [add_assistant, h_dup]
  · rw [deriveId, List.map_map]
    rfl

/-- C6 witness: `My Helper` normalizes to the already-present id
`my_helper`, so the add fails and the store is untouched. -/
theorem add_assistant_duplicate_id_witness :
    dictContains (deriveId "My Helper") dupStore.assistants = true ∧
    (add_assistant dupStore "My Helper" "r2" "P2" "T1" = (false, dupStore) ∧
      deriveId "My Helper" = String.mk ("My Helper".toList.map
        (fun c => if Char.toLower c = ' ' then '_' else Char.toLower c))) :=
  ⟨rfl, add_assistant_duplicate_id dupStore "My Helper" "r2" "P2" "T1" rfl⟩

/-- C7 counterexample: updating assistant `bob` with the fields
`created_at` and `id` does apply both — the stored record's `created_at`
becomes `1999` and its `id` field becomes `evil` — refuting that only
name/role/prompt are applied and that the id field is left unchanged. -/
theorem update_assistant_applies_unrecognized_fields :
    get_assistant (update_assistant bobStore "bob"
        [("created_at", "1999"), ("id", "evil")] "T1").2 "bob" =
      some ⟨"evil", "Bob", "r", "p", "1999", "T1"⟩ ∧
    ("evil" : String) ≠ "bob" :=
  ⟨rfl, by decide⟩

/-- C7 amended: for an existing id, `update_assistant` succeeds and applies
every supplied field that names an attribute of the record — `id`,
`created_at` and `modified_at` included, not only name/role/prompt — in
supplied order, then always refreshes `modified_at`; the record stays under
its original store key and any other entry is untouched. -/
theorem update_assistant_applies_attribute_fields (m : AssistantManager)
    (assistant_id : String) (data : List (String × String)) (now : String)
    (a : Assistant) (k : String)
    (h_found : dictFind assistant_id m.assistants = some a)
    (h_k : k ≠ assistant_id) :
    (update_assistant m assistant_id data now).1 = true ∧
    dictFind assistant_id (update_assistant m assistant_id data now).2.assistants =
      some { data.foldl applyField a with modified_at := now } ∧
    dictFind k (update_assistant m assistant_id data now).2.assistants =
      dictFind k m.assistants := by
  simp only [update_assistant, h_found]
  exact ⟨trivial, dictFind_dictInsert_self _ _ _, dictFind_dictInsert_ne _ _ _ _ h_k⟩

/-- C7 amended witness: a concrete update of `alice` applying a recognized
and an unrecognized-by-the-claim field. -/
theorem update_assistant_applies_attribute_fields_witness :
    (dictFind "alice" aliceStore.assistants =
        some ⟨"alice", "Alice", "r", "p", "T0", "T0"⟩ ∧ ("zed" : String) ≠ "alice") ∧
    ((update_assistant aliceStore "alice"
        [("name", "Alicia"), ("created_at", "1999")] "T1").1 = true ∧
      dictFind "alice" (update_assistant aliceStore "alice"
          [("name", "Alicia"), ("created_at", "1999")] "T1").2.assistants =
        some { [("name", "Alicia"), ("created_at", "1999")].foldl applyField
            ⟨"alice", "Alice", "r", "p", "T0", "T0"⟩ with modified_at := "T1" } ∧
      dictFind "zed" (update_assistant aliceStore "alice"
          [("name", "Alicia"), ("created_at", "1999")] "T1").2.assistants =
        dictFind "zed" aliceStore.assistants) :=
  ⟨⟨rfl, by decide⟩, update_assistant_applies_attribute_fields aliceStore "alice"
    [("name", "Alicia"), ("created_at", "1999")] "T1"
    ⟨"alice", "Alice", "r", "p", "T0", "T0"⟩ "zed" rfl (by decide)⟩

/-! ## Draft mutations leave the workflow store untouched -/

theorem applyDraftOp_workflows (m : WorkflowManager) (op : DraftOp) :
    (applyDraftOp m op).workflows = m.workflows := by
  cases op with
  | addStep assistants is_parallel step_id =>
      simp only [applyDraftOp, add_step]
      split
      · rfl
      · split
        · rfl
        · rfl
  | clearDraft => rfl

theorem foldl_applyDraftOp_workflows (ops : List DraftOp) :
    ∀ m : WorkflowManager, (ops.foldl applyDraftOp m).workflows = m.workflows := by
  induction ops with
  | nil => intro m; rfl
  | cons op rest ih =>
      intro m
      rw [List.foldl_cons, ih, applyDraftOp_workflows]

/-- C5: loading stored workflow `name` copies its steps by value into the
draft; any subsequent sequence of draft mutations (adding steps, clearing
the draft) leaves the whole workflow store — in particular the stored entry
for `name` — unchanged. -/
theorem load_then_mutate_preserves_store (m : WorkflowManager) (name : String)
    (res : WorkflowManager) (w : Workflow) (ops : List DraftOp)
    (h_w : dictFind name m.workflows = some w)
    (h_load : load_workflow m name = (true, res)) :
    res.current_workflow = w.steps ∧
    (ops.foldl applyDraftOp res).workflows = m.workflows ∧
    dictFind name (ops.foldl applyDraftOp res).workflows = some w := by
  simp only [load_workflow, h_w] at h_load
  have h2 : ({ m with current_workflow := w.steps } : WorkflowManager) = res :=
    congrArg Prod.snd h_load
  subst h2
  refine ⟨rfl, ?_, ?_⟩
  · rw [foldl_applyDraftOp_workflows]
  · rw [foldl_applyDraftOp_workflows]
    exact h_w

/-- C5 witness: load `W`, then add a step, clear the draft and add another
step — the stored `W` is still there, unchanged. -/
theorem load_then_mutate_preserves_store_witness :
    (dictFind "W" wmW.workflows = some wW ∧ load_workflow wmW "W" = (true, wmWLoaded)) ∧
    (wmWLoaded.current_workflow = wW.steps ∧
      (opsDemo.foldl applyDraftOp wmWLoaded).workflows = wmW.workflows ∧
      dictFind "W" (opsDemo.foldl applyDraftOp wmWLoaded).workflows = some wW) :=
  ⟨⟨rfl, rfl⟩, load_then_mutate_preserves_store wmW "W" wmWLoaded wW opsDemo rfl rfl⟩

/-! ## Persistence round-trip -/

theorem load_workflows_from_eq (clock : String) :
    ∀ (data : List (String × WorkflowDict)) (acc : List (String × Workflow)),
      (data.map (fun q => q.2.name) ++ acc.map Prod.fst).Nodup →
      load_workflows_from clock data acc =
        acc ++ data.map (fun q => (q.2.name, wfOfDict q.2 clock)) := by
  intro data
  induction data with
  | nil => intro acc h; simp [load_workflows_from]
  | cons p rest ih =>
      intro acc h
      simp only [List.map_cons, List.cons_append, List.nodup_cons] at h
      have hnot : p.2.name ∉ acc.map Prod.fst :=
        fun hmem => h.1 (List.mem_append_right _ hmem)
      have hperm : (rest.map (fun q => q.2.name) ++
          ((acc ++ [(p.2.name, wfOfDict p.2 clock)]).map Prod.fst)).Nodup := by
        have h2 : ((rest.map (fun q => q.2.name) ++ acc.map Prod.fst) ++
            [p.2.name]).Nodup :=
          ((List.perm_append_singleton _ _).symm).nodup (List.nodup_cons.mpr h)
        simpa [List.map_append, List.append_assoc] using h2
      rw [load_workflows_from, dictInsert_of_not_mem _ _ _ hnot, ih _ hperm]
      simp

theorem wfOfDict_to_dict_steps (w : Workflow) (clock : String) :
    (wfOfDict w.to_dict clock).steps.map stepProj = w.steps.map stepProj := by
  simp only [wfOfDict, Workflow.to_dict, List.map_map]
  refine List.map_congr_left (fun s _ => ?_)
  show stepProj (stepOfDict s.asdict clock) = stepProj s
  rw [stepOfDict]
  split <;> rfl

/-- C8: serializing the workflow store (name-keyed, as every reachable
store is) and loading the persisted form back reproduces the same workflow
names in order, and per workflow the same step list up to its observable
content (parallel flag and ordered assistant ids) — in particular the same
step count. -/
theorem save_load_round_trip (m : WorkflowManager) (clock : String)
    (h_names : ∀ p ∈ m.workflows, p.1 = p.2.name)
    (h_nodup : (m.workflows.map Prod.fst).Nodup) :
    (load_workflows (save_workflows m) clock).map
        (fun p => (p.1, p.2.steps.map stepProj)) =
      m.workflows.map (fun p => (p.1, p.2.steps.map stepProj)) := by
  have hnames2 : (save_workflows m).map (fun q => q.2.name) = m.workflows.map Prod.fst := by
    rw [save_workflows, List.map_map]
    exact List.map_congr_left (fun p hp => (h_names p hp).symm)
  rw [load_workflows, load_workflows_from_eq clock (save_workflows m) []
    (by simpa [hnames2] using h_nodup)]
  rw [List.nil_append, save_workflows, List.map_map, List.map_map]
  refine List.map_congr_left (fun p hp => ?_)
  show ((p.2.to_dict.name : String), (wfOfDict p.2.to_dict clock).steps.map stepProj) =
    (p.1, p.2.steps.map stepProj)
  rw [Prod.mk.injEq]
  exact ⟨(h_names p hp).symm, wfOfDict_to_dict_steps p.2 clock⟩

/-- C8 witness: a two-workflow store (one of its steps with an empty
persisted step id) round-trips to the same names, step kinds and assistant
lists. -/
theorem save_load_round_trip_witness :
    (load_workflows (save_workflows wmTwo) "CL").map
        (fun p => (p.1, p.2.steps.map stepProj)) =
      wmTwo.workflows.map (fun p => (p.1, p.2.steps.map stepProj)) :=
  save_load_round_trip wmTwo "CL" (by decide) (by decide)

/-- C4 counterexample: with an oracle failing with cause `boom`, the run
whose failing assistant is `alice` and the run whose failing assistant is
`bob` surface the identical error `处理消息失败: 获取助手响应失败: boom`;
neither assistant name occurs in the surfaced error, so the error does not
identify the failing assistant. -/
theorem surfaced_error_does_not_name_assistant :
    (process_message boomApi chatInit "X" wfAlice "g").1 =
      .error "处理消息失败: 获取助手响应失败: boom" ∧
    (process_message boomApi chatInit "X" wfBob "g").1 =
      .error "处理消息失败: 获取助手响应失败: boom" ∧
    ¬ ("alice".toList <:+: "处理消息失败: 获取助手响应失败: boom".toList) ∧
    ¬ ("bob".toList <:+: "处理消息失败: 获取助手响应失败: boom".toList) :=
  ⟨rfl, rfl, by decide, by decide⟩

/-- C4 amended: on a failing completion the caller receives a wrapped
`APIError` whose message is `处理消息失败: ` followed by the inner
`获取助手响应失败: ` wrapping of the oracle's cause — carrying the cause but
not the failing assistant's id or step. -/
theorem surfaced_error_wraps_cause (api : Api) (m : ChatManager)
    (message model : String) (workflow : List WorkflowStep) (e : String)
    (aid cur c : String)
    (h_init : m.system_state = SystemState.INITIALIZED)
    (h_err : runWorkflow api model workflow message [] = .error e)
    (h_call : api ⟨model, "You are " ++ aid, cur⟩ = .error c) :
    (process_message api m message workflow model).1 =
      .error ("处理消息失败: " ++ e) ∧
    get_assistant_response api cur aid model = .error ("获取助手响应失败: " ++ c) := by
  constructor
  · rw [process_message, if_neg (by simp [h_init])]
    rw [h_err]
  · rw [get_assistant_response, h_call]

/-- C4 amended witness: the failing `alice` run, concretely. -/
theorem surfaced_error_wraps_cause_witness :
    (runWorkflow boomApi "g" wfAlice "X" [] = .error "获取助手响应失败: boom" ∧
      boomApi ⟨"g", "You are " ++ "alice", "X"⟩ = .error "boom") ∧
    ((process_message boomApi chatInit "X" wfAlice "g").1 =
        .error ("处理消息失败: " ++ "获取助手响应失败: boom") ∧
      get_assistant_response boomApi "X" "alice" "g" =
        .error ("获取助手响应失败: " ++ "boom")) :=
  ⟨⟨rfl, rfl⟩, surfaced_error_wraps_cause boomApi chatInit "X" "g" wfAlice
    "获取助手响应失败: boom" "alice" "X" "boom" rfl rfl rfl⟩

end MultiAssistant
